import Mathlib

/-
Verification of the yggdrasil message journal (internal/messagejournal).

The development embeds the final single-table design of the journal:
sqlite storage is modelled as a list of rows, the Go text/template engine
used by buildDynamicGetEntriesQuery is modelled by an executable
lexer/parser/renderer, and the semantics of the emitted SQL query family
(SELECT ... INTERSECT ... ORDER BY sent) is modelled by list filtering
plus a sortedness relation.  SQLite TEXT comparison of the datetime
strings is modelled by an executable lexicographic comparison.
-/

namespace Ygg

/-- Lexicographic comparison of character lists by code point.  Models the
comparison SQLite applies to TEXT values (memcmp order, which on the
journal's uniformly formatted datetime strings coincides with time order). -/
def sqlTextLeChars : List Char → List Char → Bool
  | [], _ => true
  | _ :: _, [] => false
  | a :: as, b :: bs =>
    if a.toNat < b.toNat then true
    else if b.toNat < a.toNat then false
    else sqlTextLeChars as bs

/-- SQLite TEXT comparison on strings: `sqlTextLe a b` models `a <= b` for the
`sent >= '...'` and `sent <= '...'` predicates of the compiled query. -/
def sqlTextLe (a b : String) : Bool :=
  sqlTextLeChars a.data b.data

/-- One token of the Go text/template source: literal text or the content of
an action delimited by the double-brace markers. -/
inductive Tok where
  | lit (s : List Char)
  | act (s : List Char)
deriving DecidableEq, Repr

/-- Scan the characters of an action up to the closing double brace.  Returns
the action content and the remaining input, or none when the action is not
closed. -/
def takeAction : List Char → Option (List Char × List Char)
  | [] => none
  | c :: rest =>
    if c = '\x7d' ∧ rest.head? = some '\x7d' then some ([], rest.tail)
    else
      match takeAction rest with
      | none => none
      | some (a, r) => some (c :: a, r)

/-- Prepend accumulated literal text (if nonempty) to a token list. -/
def flushLit (acc : List Char) (toks : List Tok) : List Tok :=
  if acc = [] then toks else Tok.lit acc :: toks

/-- Lexer for the Go text/template source: splits the input into literal
segments and action contents.  Fueled; the fuel only has to dominate the
number of recursion steps, which is at most the input length. -/
def lexTemplate : Nat → List Char → List Char → Except String (List Tok)
  | 0, _, _ => Except.error "template lexer out of fuel"
  | _ + 1, [], acc => Except.ok (flushLit acc [])
  | fuel + 1, c :: rest, acc =>
    if c = '\x7b' ∧ rest.head? = some '\x7b' then
      match takeAction rest.tail with
      | none => Except.error "unclosed action"
      | some (a, r) =>
        match lexTemplate fuel r [] with
        | Except.error e => Except.error e
        | Except.ok toks => Except.ok (flushLit acc (Tok.act a :: toks))
    else lexTemplate fuel rest (acc ++ [c])

/-- The classified content of a template action. -/
inductive ActKind where
  | endA
  | fieldA (name : String)
  | ifA (neg : Bool) (name : String)
deriving DecidableEq, Repr

/-- Drop leading and trailing spaces of an action content. -/
def trimSpaces (l : List Char) : List Char :=
  ((l.dropWhile (· = ' ')).reverse.dropWhile (· = ' ')).reverse

/-- A field reference is a dot followed by a nonempty name. -/
def isFieldRef (l : List Char) : Bool :=
  match l with
  | c :: _ :: _ => c = '.'
  | _ => false

/-- Classify an action content: `end`, `if .X`, `if not .X` or a field
reference `.X`.  Anything else is a template-parse error (the model covers
the pipeline forms that the journal's query template uses). -/
def parseAct (l : List Char) : Except String ActKind :=
  let t := trimSpaces l
  if t = "end".data then Except.ok ActKind.endA
  else if t.take 3 = "if ".data then
    let body := trimSpaces (t.drop 3)
    if body.take 4 = "not ".data then
      let name := trimSpaces (body.drop 4)
      if isFieldRef name then Except.ok (ActKind.ifA true (String.mk name))
      else Except.error "unsupported if argument"
    else if isFieldRef body then Except.ok (ActKind.ifA false (String.mk body))
    else Except.error "unsupported if argument"
  else if isFieldRef t then Except.ok (ActKind.fieldA (String.mk t))
  else Except.error "unsupported action"

/-- An atom of the parsed template: literal text or a field substitution. -/
inductive TplAtom where
  | text (s : String)
  | field (name : String)
deriving DecidableEq, Repr

/-- A node of the parsed template: an atom, or a conditional block guarded by
the truthiness of a field (negated when `neg` is set).  The journal's query
template only nests atoms below conditionals, which is what the model
supports; deeper nesting is a parse error. -/
inductive TplNode where
  | atom (a : TplAtom)
  | cond (neg : Bool) (name : String) (body : List TplAtom)
deriving DecidableEq, Repr

/-- Parse the body of a conditional block up to the matching end action. -/
def parseIfBody : List Tok → Except String (List TplAtom × List Tok)
  | [] => Except.error "unclosed if action"
  | Tok.lit s :: rest =>
    match parseIfBody rest with
    | Except.error e => Except.error e
    | Except.ok (atoms, r) => Except.ok (TplAtom.text (String.mk s) :: atoms, r)
  | Tok.act a :: rest =>
    match parseAct a with
    | Except.error e => Except.error e
    | Except.ok ActKind.endA => Except.ok ([], rest)
    | Except.ok (ActKind.fieldA n) =>
      match parseIfBody rest with
      | Except.error e => Except.error e
      | Except.ok (atoms, r) => Except.ok (TplAtom.field n :: atoms, r)
    | Except.ok (ActKind.ifA _ _) => Except.error "nested if not supported"

/-- Parse a token list into template nodes.  Fueled; the fuel only has to
dominate the number of steps, at most the token count. -/
def parseNodes : Nat → List Tok → Except String (List TplNode)
  | 0, _ => Except.error "template parser out of fuel"
  | _ + 1, [] => Except.ok []
  | fuel + 1, Tok.lit s :: rest =>
    (parseNodes fuel rest).map (TplNode.atom (TplAtom.text (String.mk s)) :: ·)
  | fuel + 1, Tok.act a :: rest =>
    match parseAct a with
    | Except.error e => Except.error e
    | Except.ok ActKind.endA => Except.error "unexpected end action"
    | Except.ok (ActKind.fieldA n) =>
      (parseNodes fuel rest).map (TplNode.atom (TplAtom.field n) :: ·)
    | Except.ok (ActKind.ifA neg n) =>
      match parseIfBody rest with
      | Except.error e => Except.error e
      | Except.ok (atoms, r) => (parseNodes fuel r).map (TplNode.cond neg n atoms :: ·)

/-- Parse a template source string, as `template.Parse` does in
buildDynamicGetEntriesQuery. -/
def parseTemplate (s : String) : Except String (List TplNode) :=
  match lexTemplate (s.length + 1) s.data [] with
  | Except.error e => Except.error e
  | Except.ok toks => parseNodes (toks.length + 1) toks

/-- A value supplied to the template: the query builder passes strings and
one boolean. -/
inductive TVal where
  | str (s : String)
  | bool (b : Bool)
deriving DecidableEq, Repr

/-- Go template truthiness: a string is truthy when nonempty, a boolean is
its own truth value. -/
def TVal.truthy : TVal → Bool
  | TVal.str s => !(s == "")
  | TVal.bool b => b

/-- Text written for a substituted value. -/
def TVal.out : TVal → String
  | TVal.str s => s
  | TVal.bool b => if b then "true" else "false"

/-- The data passed to template execution: field lookup by name, `none` for a
field the data does not have (a template-execute error, as in Go). -/
def TplCtx := String → Option TVal

/-- Render one atom. -/
def renderAtom (ctx : TplCtx) : TplAtom → Except String String
  | TplAtom.text s => Except.ok s
  | TplAtom.field n =>
    match ctx n with
    | none => Except.error ("cannot evaluate field " ++ n)
    | some v => Except.ok v.out

/-- Render a list of atoms to the list of emitted pieces. -/
def renderAtoms (ctx : TplCtx) : List TplAtom → Except String (List String)
  | [] => Except.ok []
  | a :: rest =>
    match renderAtom ctx a with
    | Except.error e => Except.error e
    | Except.ok s =>
      match renderAtoms ctx rest with
      | Except.error e => Except.error e
      | Except.ok l => Except.ok (s :: l)

/-- Render one node: a conditional block emits its body exactly when the
guard field's truthiness matches the (possibly negated) condition. -/
def renderNode (ctx : TplCtx) : TplNode → Except String (List String)
  | TplNode.atom a =>
    match renderAtom ctx a with
    | Except.error e => Except.error e
    | Except.ok s => Except.ok [s]
  | TplNode.cond neg n body =>
    match ctx n with
    | none => Except.error ("cannot evaluate field " ++ n)
    | some v => if v.truthy = !neg then renderAtoms ctx body else Except.ok []

/-- Render a node list to the concatenated list of emitted pieces. -/
def renderNodes (ctx : TplCtx) : List TplNode → Except String (List String)
  | [] => Except.ok []
  | n :: rest =>
    match renderNode ctx n with
    | Except.error e => Except.error e
    | Except.ok l1 =>
      match renderNodes ctx rest with
      | Except.error e => Except.error e
      | Except.ok l2 => Except.ok (l1 ++ l2)

/-- Execute a parsed template against data, as `Template.Execute` does in
buildDynamicGetEntriesQuery: the emitted pieces are joined into the
compiled query string. -/
def executeTemplate (ctx : TplCtx) (nodes : List TplNode) : Except String String :=
  match renderNodes ctx nodes with
  | Except.error e => Except.error e
  | Except.ok pieces => Except.ok (String.join pieces)

/-- The single journal table of the final design. -/
def messageJournalTableName : String := "journal"

/-- One stored row of the `journal` table (migration
000001_messagejournal.up.sql): surrogate key `id`, the five message columns,
and the structured `worker_data` payload.  The stored `worker_data` column
holds the JSON encoding of a string-to-string map; since encoding followed
by decoding of such a map round-trips, the model stores the map itself (as
an association list).  The `sent` DATETIME column is stored and compared by
SQLite as its formatted text, so the model carries that string. -/
structure Row where
  id : Nat
  messageID : String
  sent : String
  workerName : String
  responseTo : String
  workerEvent : Nat
  workerData : List (String × String)
deriving DecidableEq, Repr

/-- The retrieval filter, mirroring the Go `Filter` struct of the final
design: empty strings mean an absent optional constraint.  The Go field
Until is rendered here as untilTime, since that word is reserved in Lean. -/
structure Filter where
  persistent : Bool
  truncateLength : Nat
  messageID : String
  worker : String
  since : String
  untilTime : String
deriving DecidableEq, Repr

/-- The journal handle: the stored rows plus the open-time watermark
`initializedAt` (recorded as its formatted text, which is what
buildDynamicGetEntriesQuery interpolates and SQLite compares). -/
structure MessageJournal where
  rows : List Row
  initializedAt : String
deriving DecidableEq, Repr

/-- The query template literal of buildDynamicGetEntriesQuery, byte for byte
as it appears in the source (double braces written escaped). -/
def templateText : String :=
  "SELECT * FROM \x7b\x7b.Table\x7d\x7d\n\t\t\x7b\x7bif .MessageID\x7d\x7d INTERSECT SELECT * FROM \x7b\x7b.Table\x7d\x7d WHERE message_id=\x27\x7b\x7b.MessageID\x7d\x7d\x27\x7b\x7bend\x7d\x7d\n\t\t\x7b\x7bif .Worker\x7d\x7d INTERSECT SELECT * FROM \x7b\x7b.Table\x7d\x7d WHERE worker_name=\x27\x7b\x7b.Worker\x7d\x7d\x27\x7b\x7bend\x7d\x7d\n\t\t\x7b\x7bif .Since\x7d\x7d INTERSECT SELECT * FROM \x7b\x7b.Table\x7d\x7d WHERE sent>=\x27\x7b\x7b.Since\x7d\x7d\x27\x7b\x7bend\x7d\x7d\n\t\t\x7b\x7bif .Until\x7d\x7d INTERSECT SELECT * FROM \x7b\x7b.Table\x7d\x7d WHERE sent<=\x27\x7b\x7b.Until\x7d\x7d\x27\x7b\x7bend\x7d\x7d\n\t\t\x7b\x7bif not .Persistent\x7d\x7d INTERSECT SELECT * FROM \x7b\x7b.Table\x7d\x7d WHERE sent>=\x27\x7b\x7b.InitializedAt\x7d\x7d\x27\x7b\x7bend\x7d\x7d\n\t\tORDER BY sent"

/-- The template data of buildDynamicGetEntriesQuery: the anonymous struct
with fields Table, InitializedAt, Persistent, MessageID, Worker, Since,
Until, exposed to the engine as lookup by field name. -/
def ctxOf (j : MessageJournal) (f : Filter) : TplCtx := fun name =>
  if name = ".Table" then some (TVal.str messageJournalTableName)
  else if name = ".InitializedAt" then some (TVal.str j.initializedAt)
  else if name = ".Persistent" then some (TVal.bool f.persistent)
  else if name = ".MessageID" then some (TVal.str f.messageID)
  else if name = ".Worker" then some (TVal.str f.worker)
  else if name = ".Since" then some (TVal.str f.since)
  else if name = ".Until" then some (TVal.str f.untilTime)
  else none

/-- buildDynamicGetEntriesQuery of the final design: parse the query
template, execute it against the filter data, and return the compiled
query string, wrapping errors of either stage as the source does. -/
def buildDynamicGetEntriesQuery (j : MessageJournal) (f : Filter) : Except String String :=
  match parseTemplate templateText with
  | Except.error e => Except.error ("cannot parse query template parameters: " ++ e)
  | Except.ok nodes =>
    match executeTemplate (ctxOf j f) nodes with
    | Except.error e => Except.error ("cannot compile query template: " ++ e)
    | Except.ok q => Except.ok q

/-- Semantics of one compiled query on one row.  The compiled query is the
intersection of `SELECT * FROM journal` with one single-condition select per
present filter field (INTERSECT of selects over a table whose rows are
distinct by primary key is list filtering), so a row is in the result set
exactly when it passes every emitted condition:
`message_id='...'` when the message id filter is nonempty,
`worker_name='...'` when the worker filter is nonempty,
`sent>='...'` when the lower bound is nonempty,
`sent<='...'` when the upper bound is nonempty, and
`sent>='initializedAt'` when the filter is not persistent. -/
def matchesFilter (j : MessageJournal) (f : Filter) (r : Row) : Bool :=
  (f.messageID == "" || r.messageID == f.messageID) &&
  ((f.worker == "" || r.workerName == f.worker) &&
  ((f.since == "" || sqlTextLe f.since r.sent) &&
  ((f.untilTime == "" || sqlTextLe r.sent f.untilTime) &&
  (f.persistent || sqlTextLe j.initializedAt r.sent))))

/-- The multiset of rows the compiled query selects, before ordering. -/
def matchRows (j : MessageJournal) (f : Filter) : List Row :=
  j.rows.filter (matchesFilter j f)

/-- Modelled from the spec: the consumed collaborator resolving a worker
event integer code to its symbolic name (`ipc.WorkerEventName.String`), a
pure lookup external to the journal sources; code 0 resolves to the empty
name as the journal tests show. -/
def workerEventName : Nat → String
  | 1 => "BEGIN"
  | 2 => "END"
  | 3 => "WORKING"
  | 4 => "STARTED"
  | 5 => "STOPPED"
  | _ => ""

/-- Rewrite the value stored under key `k` of the decoded event data map. -/
def setKey (data : List (String × String)) (k v : String) : List (String × String) :=
  data.map (fun p => if p.1 = k then (k, v) else p)

/-- The truncation step of GetEntries on the decoded event data: when the
map has a `message` field of length at least the positive truncation bound,
replace it by its first `truncateLength` characters followed by the
ellipsis marker; otherwise leave the map untouched. -/
def truncateEventData (truncateLength : Nat) (eventData : List (String × String)) :
    List (String × String) :=
  match eventData.lookup "message" with
  | none => eventData
  | some msg =>
    if truncateLength ≤ msg.length ∧ 0 < truncateLength then
      setKey eventData "message" (msg.take truncateLength ++ "...")
    else eventData

/-- The string-keyed record GetEntries builds per row (fixed keys
message_id, sent, worker_name, response_to, worker_event, worker_data),
modelled as a structure.  `sent` carries the row's formatted timestamp, the
event code is resolved to its name, and the re-encoded `worker_data` map is
kept structured (JSON encoding of the map is modelled by the map itself). -/
structure ProjectedEntry where
  messageID : String
  sent : String
  workerName : String
  responseTo : String
  workerEvent : String
  workerData : List (String × String)
deriving DecidableEq, Repr

/-- The projection GetEntries applies to one scanned row. -/
def projectEntry (f : Filter) (r : Row) : ProjectedEntry :=
  { messageID := r.messageID
    sent := r.sent
    workerName := r.workerName
    responseTo := r.responseTo
    workerEvent := workerEventName r.workerEvent
    workerData := truncateEventData f.truncateLength r.workerData }

/-- The error type of the journal: `errorJournal` wrapping a message. -/
inductive JournalError where
  | journalError (msg : String)
deriving DecidableEq, Repr

/-- The tail of GetEntries on the rows the query returned, in their returned
order: project every row, and fail with the distinguished errorJournal
when no entry was produced. -/
def getEntriesOfRows (f : Filter) (order : List Row) :
    Except JournalError (List ProjectedEntry) :=
  let entries := order.map (projectEntry f)
  if entries.length = 0 then
    Except.error (JournalError.journalError "no journal entries found")
  else Except.ok entries

/-- The row order relation of the compiled query's `ORDER BY sent`. -/
def sentLE (a b : Row) : Prop := sqlTextLe a.sent b.sent = true

instance : DecidableRel sentLE :=
  fun a b => inferInstanceAs (Decidable (sqlTextLe a.sent b.sent = true))

/-- One ordering SQLite may return: a stable sort by `sent`.  Used as the
canonical execution of the compiled query; `IsGetEntriesOrder` below
captures every ordering the query admits. -/
def sortBySent (rows : List Row) : List Row :=
  List.insertionSort sentLE rows

/-- GetEntries of the final design: build the dynamic query (wrapping a
build failure), then — modelling the prepared query's execution — project
the selected rows in sorted order and apply the empty-result policy. -/
def GetEntries (j : MessageJournal) (f : Filter) :
    Except JournalError (List ProjectedEntry) :=
  match buildDynamicGetEntriesQuery j f with
  | Except.error e =>
    Except.error (JournalError.journalError ("cannot build dynamic sql query: " ++ e))
  | Except.ok _ => getEntriesOfRows f (sortBySent (matchRows j f))

/-- The orderings of the selected rows that the compiled query admits: a
permutation of the selected rows that is nondecreasing in `sent`.  `ORDER BY
sent` names no further sort key, so ties are not pinned down. -/
def IsGetEntriesOrder (j : MessageJournal) (f : Filter) (order : List Row) : Prop :=
  order.Perm (matchRows j f) ∧ List.Sorted sentLE order

/-- The outcomes GetEntries admits: the projection pipeline applied to some
admissible ordering of the selected rows. -/
def IsGetEntriesOutcome (j : MessageJournal) (f : Filter)
    (out : Except JournalError (List ProjectedEntry)) : Prop :=
  ∃ order, IsGetEntriesOrder j f order ∧ out = getEntriesOfRows f order

/-- The worker message handed to AddEntry (yggdrasil.WorkerMessage with the
structured WorkerEvent payload of the final schema). -/
structure WorkerMessage where
  messageID : String
  sent : String
  workerName : String
  responseTo : String
  eventName : Nat
  eventData : List (String × String)
deriving DecidableEq, Repr

/-- The surrogate key sqlite assigns to the inserted row: one more than the
largest key in the table. -/
def nextRowId (j : MessageJournal) : Nat :=
  j.rows.foldr (fun r m => max r.id m) 0 + 1

/-- The row the AddEntry INSERT creates from a worker message, with the
event data JSON-encoded into the worker_data column (modelled by the map
itself, as encoding a string map cannot fail and decoding round-trips). -/
def rowOfMessage (id : Nat) (e : WorkerMessage) : Row :=
  { id := id
    messageID := e.messageID
    sent := e.sent
    workerName := e.workerName
    responseTo := e.responseTo
    workerEvent := e.eventName
    workerData := e.eventData }

/-- AddEntry of the final design: a single INSERT appending one row to the
journal table. -/
def AddEntry (j : MessageJournal) (e : WorkerMessage) : MessageJournal :=
  { j with rows := j.rows ++ [rowOfMessage (nextRowId j) e] }

/-- On-disk state of the journal storage location: the schema version
recorded by the migration tool, whether the journal table exists, and the
stored rows. -/
structure DBState where
  schemaVersion : Nat
  journalTableExists : Bool
  rows : List Row
deriving DecidableEq, Repr

/-- Migration 000001_messagejournal.up.sql: CREATE TABLE IF NOT EXISTS
journal — creates the table when absent and touches no stored rows. -/
def applyUp001 (db : DBState) : DBState :=
  { db with schemaVersion := 1, journalTableExists := true }

/-- The error golang-migrate returns from Up when no migration is pending. -/
inductive MigrateErr where
  | errNoChange
deriving DecidableEq, Repr

/-- migration.Up: apply the pending migrations in version order (here the
single version-1 migration when the recorded version is below 1), reporting
ErrNoChange when nothing was pending. -/
def migrationUp (db : DBState) : DBState × Option MigrateErr :=
  if db.schemaVersion < 1 then (applyUp001 db, none)
  else (db, some MigrateErr.errNoChange)

/-- migrateMessageJournalDB: run the migrations and treat ErrNoChange as
success, as the source's `err != migrate.ErrNoChange` check does. -/
def migrateMessageJournalDB (db : DBState) : Except String DBState :=
  match migrationUp db with
  | (db2, none) => Except.ok db2
  | (db2, some MigrateErr.errNoChange) => Except.ok db2

/-- New of the final design: migrate the storage location and hand back a
journal whose open time is recorded now; nothing is dropped or cleared. -/
def New (db : DBState) (now : String) : Except String (DBState × MessageJournal) :=
  match migrateMessageJournalDB db with
  | Except.error e => Except.error ("database migration error: " ++ e)
  | Except.ok db2 => Except.ok (db2, { rows := db2.rows, initializedAt := now })

/-- The atoms of one conditional INTERSECT clause of the query template. -/
def clauseAtoms (condition : String) (fieldName : String) : List TplAtom :=
  [TplAtom.text " INTERSECT SELECT * FROM ", TplAtom.field ".Table",
   TplAtom.text condition, TplAtom.field fieldName, TplAtom.text "\x27"]

/-- The parse of the query template, written out; `parse_templateText` below
verifies that `parseTemplate templateText` yields exactly this. -/
def templateNodes : List TplNode :=
  [TplNode.atom (TplAtom.text "SELECT * FROM "),
   TplNode.atom (TplAtom.field ".Table"),
   TplNode.atom (TplAtom.text "\n\t\t"),
   TplNode.cond false ".MessageID" (clauseAtoms " WHERE message_id=\x27" ".MessageID"),
   TplNode.atom (TplAtom.text "\n\t\t"),
   TplNode.cond false ".Worker" (clauseAtoms " WHERE worker_name=\x27" ".Worker"),
   TplNode.atom (TplAtom.text "\n\t\t"),
   TplNode.cond false ".Since" (clauseAtoms " WHERE sent>=\x27" ".Since"),
   TplNode.atom (TplAtom.text "\n\t\t"),
   TplNode.cond false ".Until" (clauseAtoms " WHERE sent<=\x27" ".Until"),
   TplNode.atom (TplAtom.text "\n\t\t"),
   TplNode.cond true ".Persistent" (clauseAtoms " WHERE sent>=\x27" ".InitializedAt"),
   TplNode.atom (TplAtom.text "\n\t\tORDER BY sent")]

/-- Whether an atom only references fields the data has. -/
def atomOk (ctx : TplCtx) : TplAtom → Bool
  | TplAtom.text _ => true
  | TplAtom.field n => (ctx n).isSome

/-- Whether a node only references fields the data has. -/
def nodeOk (ctx : TplCtx) : TplNode → Bool
  | TplNode.atom a => atomOk ctx a
  | TplNode.cond _ n body => (ctx n).isSome && body.all (atomOk ctx)

/-- The read order the claim about `ORDER BY sent` asserts: nondecreasing in
`sent`, with entries of equal `sent` in ascending insertion order. -/
def sentIdOrdered (l : List Row) : Prop :=
  l.Pairwise (fun a b => sentLE a b ∧ (a.sent = b.sent → a.id ≤ b.id))

/-- A stored entry with a structured payload holding a `message` text field
and a sibling `code` field (the truncation scenario). -/
def exRow1 : Row :=
  ⟨1, "m-1", "2000-01-01 00:00:00", "w1", "", 0, [("message", "hello world"), ("code", "7")]⟩

/-- A second stored entry with the same `sent` timestamp as `exRow1`. -/
def exRow2 : Row := ⟨2, "m-2", "2000-01-01 00:00:00", "w2", "", 0, []⟩

/-- An entry written before the session journal's open time. -/
def exRowEarly : Row := ⟨1, "m-e", "2024-01-01 00:00:00", "w1", "", 0, []⟩

/-- An entry written after the session journal's open time. -/
def exRowLate : Row := ⟨2, "m-l", "2024-01-03 00:00:00", "w1", "", 0, []⟩

/-- A journal holding the two equal-`sent` entries. -/
def exJournal : MessageJournal := ⟨[exRow1, exRow2], "1999-01-01 00:00:00"⟩

/-- A journal opened between the `sent` times of its two entries. -/
def exSessionJournal : MessageJournal := ⟨[exRowEarly, exRowLate], "2024-01-02 00:00:00"⟩

/-- The durable filter with no optional constraints and no truncation. -/
def noFilter : Filter := ⟨true, 0, "", "", "", ""⟩

/-- The unconstrained durable filter with truncation bound 5. -/
def exTruncFilter : Filter := { noFilter with truncateLength := 5 }

/-- The unconstrained session-scoped filter. -/
def exSessionFilter : Filter := { noFilter with persistent := false }

/-- A journal holding no entries. -/
def emptyJournal : MessageJournal := ⟨[], "2024-01-01 00:00:00"⟩

/-- A worker message used to exercise AddEntry. -/
def exMessage : WorkerMessage :=
  ⟨"m-new", "2024-02-02 00:00:00", "w9", "", 1, [("message", "hi")]⟩

set_option maxRecDepth 8192

theorem sqlTextLeChars_trans :
    ∀ as bs cs, sqlTextLeChars as bs = true → sqlTextLeChars bs cs = true →
      sqlTextLeChars as cs = true := by
  intro as
  induction as with
  | nil => intro bs cs _ _; rfl
  | cons a as ih =>
    intro bs cs h1 h2
    cases bs with
    | nil => simp [sqlTextLeChars] at h1
    | cons b bs =>
      cases cs with
      | nil => simp [sqlTextLeChars] at h2
      | cons c cs =>
        simp only [sqlTextLeChars] at h1 h2 ⊢
        split_ifs at h1 h2 ⊢ <;>
          first
          | rfl
          | omega
          | exact ih bs cs h1 h2

theorem sqlTextLeChars_total :
    ∀ as bs, sqlTextLeChars as bs = true ∨ sqlTextLeChars bs as = true := by
  intro as
  induction as with
  | nil => intro bs; left; rfl
  | cons a as ih =>
    intro bs
    cases bs with
    | nil => right; rfl
    | cons b bs =>
      simp only [sqlTextLeChars]
      split_ifs <;> first | left; rfl | right; rfl | omega | exact ih bs

theorem sentLE_trans : ∀ a b c : Row, sentLE a b → sentLE b c → sentLE a c :=
  fun _ _ _ h1 h2 => sqlTextLeChars_trans _ _ _ h1 h2

theorem sentLE_total : ∀ a b : Row, sentLE a b ∨ sentLE b a :=
  fun a b => sqlTextLeChars_total a.sent.data b.sent.data

theorem sortBySent_perm (l : List Row) : (sortBySent l).Perm l :=
  List.perm_insertionSort sentLE l

theorem sortBySent_sorted (l : List Row) : List.Sorted sentLE (sortBySent l) :=
  @List.sorted_insertionSort Row sentLE _ ⟨sentLE_total⟩ ⟨fun _ _ _ => sentLE_trans _ _ _⟩ l

theorem parse_templateText : parseTemplate templateText = Except.ok templateNodes := by
  rfl

theorem renderAtoms_ok (ctx : TplCtx) (l : List TplAtom)
    (h : l.all (atomOk ctx) = true) : ∃ out, renderAtoms ctx l = Except.ok out := by
  induction l with
  | nil => exact ⟨[], rfl⟩
  | cons a rest ih =>
    simp only [List.all_cons, Bool.and_eq_true] at h
    obtain ⟨out, hout⟩ := ih h.2
    cases a with
    | text s => exact ⟨s :: out, by simp [renderAtoms, renderAtom, hout]⟩
    | field n =>
      cases hc : ctx n with
      | none => simp [atomOk, hc] at h
      | some v => exact ⟨v.out :: out, by simp [renderAtoms, renderAtom, hc, hout]⟩

theorem renderNode_ok (ctx : TplCtx) (n : TplNode)
    (h : nodeOk ctx n = true) : ∃ out, renderNode ctx n = Except.ok out := by
  cases n with
  | atom a =>
    cases a with
    | text s => exact ⟨[s], rfl⟩
    | field nm =>
      cases hc : ctx nm with
      | none => simp [nodeOk, atomOk, hc] at h
      | some v => exact ⟨[v.out], by simp [renderNode, renderAtom, hc]⟩
  | cond neg nm body =>
    simp only [nodeOk, Bool.and_eq_true] at h
    cases hc : ctx nm with
    | none => simp [hc] at h
    | some v =>
      by_cases ht : v.truthy = !neg
      · obtain ⟨out, hout⟩ := renderAtoms_ok ctx body h.2
        exact ⟨out, by simp [renderNode, hc, ht, hout]⟩
      · exact ⟨[], by simp [renderNode, hc, ht]⟩

theorem renderNodes_ok (ctx : TplCtx) (l : List TplNode)
    (h : l.all (nodeOk ctx) = true) : ∃ out, renderNodes ctx l = Except.ok out := by
  induction l with
  | nil => exact ⟨[], rfl⟩
  | cons n rest ih =>
    simp only [List.all_cons, Bool.and_eq_true] at h
    obtain ⟨out1, h1⟩ := renderNode_ok ctx n h.1
    obtain ⟨out2, h2⟩ := ih h.2
    exact ⟨out1 ++ out2, by simp [renderNodes, h1, h2]⟩

theorem templateNodes_fields_ok (j : MessageJournal) (f : Filter) :
    templateNodes.all (nodeOk (ctxOf j f)) = true := by
  rfl

theorem buildQuery_ok (j : MessageJournal) (f : Filter) :
    ∃ q, buildDynamicGetEntriesQuery j f = Except.ok q := by
  obtain ⟨pieces, hr⟩ := renderNodes_ok (ctxOf j f) templateNodes (templateNodes_fields_ok j f)
  exact ⟨String.join pieces,
    by simp [buildDynamicGetEntriesQuery, parse_templateText, executeTemplate, hr]⟩

theorem getEntries_eq (j : MessageJournal) (f : Filter) :
    GetEntries j f = getEntriesOfRows f (sortBySent (matchRows j f)) := by
  obtain ⟨q, hq⟩ := buildQuery_ok j f
  simp [GetEntries, hq]

theorem getEntries_isOutcome (j : MessageJournal) (f : Filter) :
    IsGetEntriesOutcome j f (GetEntries j f) :=
  ⟨sortBySent (matchRows j f), ⟨sortBySent_perm _, sortBySent_sorted _⟩, getEntries_eq j f⟩

theorem outcome_ok_map (j : MessageJournal) (f : Filter) (l : List ProjectedEntry)
    (hout : IsGetEntriesOutcome j f (Except.ok l)) :
    ∃ order, IsGetEntriesOrder j f order ∧ l = order.map (projectEntry f) := by
  obtain ⟨order, horder, heq⟩ := hout
  simp only [getEntriesOfRows] at heq
  by_cases hnil : order = []
  · subst hnil
    simp at heq
  · have hc : ¬(List.map (projectEntry f) order).length = 0 := by simp [hnil]
    rw [if_neg hc] at heq
    exact ⟨order, horder, Except.ok.inj heq⟩

theorem outcome_ok_mem (j : MessageJournal) (f : Filter) (r : Row)
    (l : List ProjectedEntry) (hr : r ∈ matchRows j f)
    (hout : IsGetEntriesOutcome j f (Except.ok l)) : projectEntry f r ∈ l := by
  obtain ⟨order, ⟨hperm, _⟩, hl⟩ := outcome_ok_map j f l hout
  exact hl ▸ List.mem_map_of_mem (projectEntry f) (hperm.mem_iff.mpr hr)

theorem lookup_setKey_self (data : List (String × String)) (k v w : String)
    (h : data.lookup k = some w) : (setKey data k v).lookup k = some v := by
  induction data with
  | nil => simp at h
  | cons p rest ih =>
    obtain ⟨k1, v1⟩ := p
    by_cases h1 : k1 = k
    · subst h1
      simp [setKey, List.lookup_cons]
    · have hk : (k == k1) = false := by
        simp only [beq_eq_false_iff_ne, ne_eq]
        exact fun hkk => h1 hkk.symm
      rw [List.lookup_cons, hk] at h
      simp only [setKey, List.map_cons] at ih ⊢
      simp only [if_neg h1, List.lookup_cons, hk]
      exact ih h

theorem lookup_setKey_ne (data : List (String × String)) (k v k2 : String)
    (hne : k2 ≠ k) : (setKey data k v).lookup k2 = data.lookup k2 := by
  induction data with
  | nil => simp [setKey]
  | cons p rest ih =>
    obtain ⟨k1, v1⟩ := p
    by_cases h1 : k1 = k
    · subst h1
      have hk : (k2 == k1) = false := by simp [beq_eq_false_iff_ne, hne]
      simp only [setKey, List.map_cons] at ih ⊢
      simp only [eq_self_iff_true, if_true]
      rw [List.lookup_cons, List.lookup_cons, hk]
      exact ih
    · simp only [setKey, List.map_cons] at ih ⊢
      simp only [if_neg h1, List.lookup_cons]
      cases hk : k2 == k1 with
      | true => rfl
      | false => exact ih

theorem truncateEventData_long (tl : Nat) (data : List (String × String)) (msg : String)
    (hmsg : data.lookup "message" = some msg) (hpos : 0 < tl) (hlen : tl ≤ msg.length) :
    (truncateEventData tl data).lookup "message" = some (msg.take tl ++ "...") ∧
      ∀ k, k ≠ "message" → (truncateEventData tl data).lookup k = data.lookup k := by
  have hcond : tl ≤ msg.length ∧ 0 < tl := ⟨hlen, hpos⟩
  simp only [truncateEventData, hmsg, if_pos hcond]
  exact ⟨lookup_setKey_self data "message" _ msg hmsg,
    fun k hk => lookup_setKey_ne data "message" _ k hk⟩

theorem truncateEventData_keep (tl : Nat) (data : List (String × String))
    (h : tl = 0 ∨ ∀ msg, data.lookup "message" = some msg → msg.length < tl) :
    truncateEventData tl data = data := by
  cases hm : data.lookup "message" with
  | none => simp [truncateEventData, hm]
  | some msg =>
    have hcond : ¬(tl ≤ msg.length ∧ 0 < tl) := by
      rcases h with h0 | hlt
      · omega
      · have := hlt msg hm
        omega
    simp [truncateEventData, hm, hcond]

theorem id_le_foldMax (l : List Row) (r : Row) (h : r ∈ l) :
    r.id ≤ l.foldr (fun r m => max r.id m) 0 := by
  induction l with
  | nil => simp at h
  | cons a rest ih =>
    rcases List.mem_cons.mp h with h1 | h1
    · subst h1; exact Nat.le_max_left _ _
    · exact Nat.le_trans (ih h1) (Nat.le_max_right _ _)

theorem newRow_notMem (j : MessageJournal) (e : WorkerMessage) :
    rowOfMessage (nextRowId j) e ∉ j.rows := by
  intro h
  have := id_le_foldMax j.rows _ h
  simp only [rowOfMessage, nextRowId] at this
  omega

theorem matchRows_noConstraints (j : MessageJournal) (f : Filter)
    (hP : f.persistent = true) (h1 : f.messageID = "") (h2 : f.worker = "")
    (h3 : f.since = "") (h4 : f.untilTime = "") : matchRows j f = j.rows := by
  apply List.filter_eq_self.mpr
  intro r _
  simp [matchesFilter, hP, h1, h2, h3, h4]

theorem matchesFilter_session (j : MessageJournal) (f : Filter) (r : Row)
    (hp : f.persistent = false) (h : matchesFilter j f r = true) :
    sqlTextLe j.initializedAt r.sent = true := by
  simp only [matchesFilter, hp, Bool.false_or, Bool.and_eq_true] at h
  exact h.2.2.2.2

theorem matchRows_persistent_ignores_initAt (rows : List Row) (f : Filter)
    (hp : f.persistent = true) (i1 i2 : String) :
    matchRows ⟨rows, i1⟩ f = matchRows ⟨rows, i2⟩ f := by
  unfold matchRows
  congr 1
  funext r
  simp [matchesFilter, hp]

/-- C1: the claim says the filter compiler binds all literal filter values
as query parameters, with a query text that depends only on which filter
fields are present.  The final buildDynamicGetEntriesQuery does the
opposite: it interpolates the values into the query text (and returns no
bound-argument list at all).  Evaluated here at three filters of identical
shape: the compiled text embeds the message id literally, so it differs
between values and a crafted value lands verbatim in the SQL. -/
theorem c1_filter_values_interpolated :
    buildDynamicGetEntriesQuery exJournal { noFilter with messageID := "a" } =
      Except.ok "SELECT * FROM journal\n\t\t INTERSECT SELECT * FROM journal WHERE message_id=\x27a\x27\n\t\t\n\t\t\n\t\t\n\t\t\n\t\tORDER BY sent" ∧
    buildDynamicGetEntriesQuery exJournal { noFilter with messageID := "b" } =
      Except.ok "SELECT * FROM journal\n\t\t INTERSECT SELECT * FROM journal WHERE message_id=\x27b\x27\n\t\t\n\t\t\n\t\t\n\t\t\n\t\tORDER BY sent" ∧
    buildDynamicGetEntriesQuery exJournal { noFilter with messageID := "x\x27 OR \x271\x27=\x271" } =
      Except.ok "SELECT * FROM journal\n\t\t INTERSECT SELECT * FROM journal WHERE message_id=\x27x\x27 OR \x271\x27=\x271\x27\n\t\t\n\t\t\n\t\t\n\t\t\n\t\tORDER BY sent" ∧
    ("SELECT * FROM journal\n\t\t INTERSECT SELECT * FROM journal WHERE message_id=\x27a\x27\n\t\t\n\t\t\n\t\t\n\t\t\n\t\tORDER BY sent" : String) ≠
      "SELECT * FROM journal\n\t\t INTERSECT SELECT * FROM journal WHERE message_id=\x27b\x27\n\t\t\n\t\t\n\t\t\n\t\t\n\t\tORDER BY sent" :=
  ⟨rfl, rfl, rfl, by decide⟩

/-- C2: for every stored entry selected by the filter whose structured
payload has a `message` field of length at least the positive truncation
bound, every result GetEntries can return contains that entry projected
with the message replaced by its first `truncateLength` characters plus the
"..." marker, and with every other payload field unchanged. -/
theorem c2_truncation_exact_and_frame (j : MessageJournal) (f : Filter) (r : Row)
    (msg : String) (hmem : r ∈ matchRows j f)
    (hmsg : r.workerData.lookup "message" = some msg)
    (hpos : 0 < f.truncateLength) (hlen : f.truncateLength ≤ msg.length)
    (l : List ProjectedEntry) (hout : IsGetEntriesOutcome j f (Except.ok l)) :
    projectEntry f r ∈ l ∧
    (projectEntry f r).workerData.lookup "message" =
      some (msg.take f.truncateLength ++ "...") ∧
    ∀ k, k ≠ "message" →
      (projectEntry f r).workerData.lookup k = r.workerData.lookup k := by
  have ht := truncateEventData_long f.truncateLength r.workerData msg hmsg hpos hlen
  exact ⟨outcome_ok_mem j f r l hmem hout, ht.1, ht.2⟩

/-- Witness for C2: the spec scenario — payload
\x7b"message": "hello world", "code": "7"\x7d with truncate length 5 projects
message to "hello..." while code stays "7". -/
theorem c2_witness :
    exRow1 ∈ matchRows exJournal exTruncFilter ∧
    projectEntry exTruncFilter exRow1 ∈
      [projectEntry exTruncFilter exRow1, projectEntry exTruncFilter exRow2] ∧
    (projectEntry exTruncFilter exRow1).workerData.lookup "message" = some "hello..." ∧
    (projectEntry exTruncFilter exRow1).workerData.lookup "code" = some "7" := by
  have hout : IsGetEntriesOutcome exJournal exTruncFilter
      (Except.ok [projectEntry exTruncFilter exRow1, projectEntry exTruncFilter exRow2]) := by
    refine ⟨[exRow1, exRow2], ⟨?_, by decide⟩, rfl⟩
    rw [show matchRows exJournal exTruncFilter = [exRow1, exRow2] from rfl]
  have h := c2_truncation_exact_and_frame exJournal exTruncFilter exRow1 "hello world"
    (by decide) (by decide) (by decide) (by decide) _ hout
  exact ⟨by decide, h.1, h.2.1, by decide⟩

/-- C3 counterexample: the claim says zero matching rows yield a normal
empty sequence and no error; on the empty journal with the unconstrained
durable filter, zero rows match and GetEntries instead returns the
distinguished errorJournal "no journal entries found". -/
theorem c3_counterexample :
    matchRows emptyJournal noFilter = [] ∧
    GetEntries emptyJournal noFilter =
      Except.error (JournalError.journalError "no journal entries found") ∧
    GetEntries emptyJournal noFilter ≠ Except.ok [] := by
  have h2 : GetEntries emptyJournal noFilter =
      Except.error (JournalError.journalError "no journal entries found") := by rfl
  exact ⟨rfl, h2, fun h => Except.noConfusion (h2.symm.trans h)⟩

/-- C3 as amended: when zero stored rows match the filter, GetEntries
returns no entries and the distinguished errorJournal
"no journal entries found" (rather than a normal empty sequence); other
errors remain reserved for execution and decoding failures. -/
theorem c3_amended_empty_is_error (j : MessageJournal) (f : Filter)
    (h : matchRows j f = []) :
    ∀ out, IsGetEntriesOutcome j f out →
      out = Except.error (JournalError.journalError "no journal entries found") := by
  rintro out ⟨order, ⟨hperm, _⟩, heq⟩
  rw [h] at hperm
  have hnil : order = [] := List.perm_nil.mp hperm
  subst hnil
  simpa [getEntriesOfRows] using heq

/-- Witness for C3's amended claim at the empty journal. -/
theorem c3_amended_witness :
    matchRows emptyJournal exSessionFilter = [] ∧
    GetEntries emptyJournal exSessionFilter =
      Except.error (JournalError.journalError "no journal entries found") := by
  refine ⟨rfl, ?_⟩
  apply c3_amended_empty_is_error emptyJournal exSessionFilter rfl
  exact getEntries_isOutcome emptyJournal exSessionFilter

/-- C4: a session-scoped query (persistent = false) only ever returns rows
whose `sent` is at or after the journal's open time, and for a durable
query (persistent = true) the selected rows do not depend on the open time
at all. -/
theorem c4_session_scope (j : MessageJournal) (f : Filter) :
    (f.persistent = false → ∀ order, IsGetEntriesOrder j f order →
      ∀ r ∈ order, sqlTextLe j.initializedAt r.sent = true) ∧
    (f.persistent = true →
      ∀ i2, matchRows { j with initializedAt := i2 } f = matchRows j f) := by
  constructor
  · rintro hp order ⟨hperm, _⟩ r hr
    have hmem : r ∈ matchRows j f := hperm.mem_iff.mp hr
    exact matchesFilter_session j f r hp (List.mem_filter.mp hmem).2
  · intro hp i2
    exact matchRows_persistent_ignores_initAt j.rows f hp i2 j.initializedAt

/-- Witness for C4: on a journal opened between its two entries, the
session filter constrains every admissible result to post-open rows, while
the durable filter ignores the open time and selects the rows written both
before and after it. -/
theorem c4_witness :
    exSessionFilter.persistent = false ∧
    (∀ order, IsGetEntriesOrder exSessionJournal exSessionFilter order →
      ∀ r ∈ order, sqlTextLe exSessionJournal.initializedAt r.sent = true) ∧
    noFilter.persistent = true ∧
    matchRows { exSessionJournal with initializedAt := "" } noFilter =
      matchRows exSessionJournal noFilter ∧
    matchRows exSessionJournal noFilter = [exRowEarly, exRowLate] ∧
    matchRows exSessionJournal exSessionFilter = [exRowLate] :=
  ⟨rfl, (c4_session_scope exSessionJournal exSessionFilter).1 rfl,
   rfl, (c4_session_scope exSessionJournal noFilter).2 rfl "",
   by decide, by decide⟩

/-- C5: an entry added by AddEntry is selected exactly once by the
unconstrained durable filter (in every admissible ordering), and never by a
filter for a different, present message id. -/
theorem c5_roundtrip (j : MessageJournal) (e : WorkerMessage) (m : String)
    (hm : m ≠ "") (hne : m ≠ e.messageID) :
    (matchRows (AddEntry j e) noFilter).count (rowOfMessage (nextRowId j) e) = 1 ∧
    (∀ order, IsGetEntriesOrder (AddEntry j e) noFilter order →
      order.count (rowOfMessage (nextRowId j) e) = 1) ∧
    rowOfMessage (nextRowId j) e ∉
      matchRows (AddEntry j e) { noFilter with messageID := m } ∧
    (∀ order, IsGetEntriesOrder (AddEntry j e) { noFilter with messageID := m } order →
      rowOfMessage (nextRowId j) e ∉ order) := by
  have hall : matchRows (AddEntry j e) noFilter = (AddEntry j e).rows :=
    matchRows_noConstraints _ _ rfl rfl rfl rfl rfl
  have hcount : ((AddEntry j e).rows).count (rowOfMessage (nextRowId j) e) = 1 := by
    show (j.rows ++ [rowOfMessage (nextRowId j) e]).count _ = 1
    rw [List.count_append, List.count_eq_zero.mpr (newRow_notMem j e)]
    simp
  have hnotm : rowOfMessage (nextRowId j) e ∉
      matchRows (AddEntry j e) { noFilter with messageID := m } := by
    intro hmem
    have h2 := (List.mem_filter.mp hmem).2
    simp only [matchesFilter, Bool.and_eq_true, Bool.or_eq_true, beq_iff_eq] at h2
    rcases h2.1 with h3 | h3
    · exact hm h3
    · exact hne h3.symm
  refine ⟨hall ▸ hcount, ?_, hnotm, ?_⟩
  · rintro order ⟨hperm, _⟩
    rw [hperm.count_eq, hall]
    exact hcount
  · rintro order ⟨hperm, _⟩ hmem
    exact hnotm (hperm.mem_iff.mp hmem)

/-- Witness for C5 on a concrete journal and worker message. -/
theorem c5_witness :
    ("zzz" : String) ≠ "" ∧ ("zzz" : String) ≠ exMessage.messageID ∧
    (matchRows (AddEntry exJournal exMessage) noFilter).count
      (rowOfMessage (nextRowId exJournal) exMessage) = 1 ∧
    rowOfMessage (nextRowId exJournal) exMessage ∉
      matchRows (AddEntry exJournal exMessage) { noFilter with messageID := "zzz" } :=
  ⟨by decide, by decide,
   (c5_roundtrip exJournal exMessage "zzz" (by decide) (by decide)).1,
   (c5_roundtrip exJournal exMessage "zzz" (by decide) (by decide)).2.2.1⟩

/-- C6 counterexample: the claim additionally asserts that equal-`sent`
entries appear in ascending insertion order, but the compiled query orders
by `sent` alone, so the ordering that lists the two equal-`sent` rows of
`exJournal` in descending id order is also admissible: the claimed
invariant fails on it. -/
theorem c6_counterexample :
    IsGetEntriesOrder exJournal noFilter [exRow2, exRow1] ∧
    ¬ sentIdOrdered [exRow2, exRow1] := by
  constructor
  · refine ⟨?_, by decide⟩
    rw [show matchRows exJournal noFilter = [exRow1, exRow2] from rfl]
    exact List.Perm.swap exRow1 exRow2 []
  · intro h
    have h2 := List.rel_of_pairwise_cons h (List.mem_cons_self exRow1 [])
    have h3 := h2.2 rfl
    simp [exRow1, exRow2] at h3

/-- C6 as amended: every sequence GetEntries returns is ordered by `sent`
ascending regardless of insertion order; the relative order of entries with
equal `sent` is not specified by the query (no id tiebreaker is emitted). -/
theorem c6_amended_sorted (j : MessageJournal) (f : Filter) (l : List ProjectedEntry)
    (h : GetEntries j f = Except.ok l) :
    ∃ order, order.Perm (matchRows j f) ∧ List.Sorted sentLE order ∧
      l = order.map (projectEntry f) := by
  rw [getEntries_eq] at h
  obtain ⟨order, horder, hl⟩ :=
    outcome_ok_map j f l ⟨sortBySent (matchRows j f),
      ⟨sortBySent_perm _, sortBySent_sorted _⟩, h.symm⟩
  exact ⟨order, horder.1, horder.2, hl⟩

/-- Witness for C6's amended claim at a concrete journal. -/
theorem c6_amended_witness :
    GetEntries exJournal noFilter =
      Except.ok [projectEntry noFilter exRow1, projectEntry noFilter exRow2] ∧
    (∃ order, order.Perm (matchRows exJournal noFilter) ∧ List.Sorted sentLE order ∧
      [projectEntry noFilter exRow1, projectEntry noFilter exRow2] =
        order.map (projectEntry noFilter)) := by
  have h : GetEntries exJournal noFilter =
      Except.ok [projectEntry noFilter exRow1, projectEntry noFilter exRow2] := by rfl
  exact ⟨h, c6_amended_sorted exJournal noFilter _ h⟩

/-- C7: when the truncation bound is zero (absent) or the payload's message
field is shorter than the bound, the projection returns the payload
untouched — no truncation, no marker — in every result GetEntries can
return that contains the entry. -/
theorem c7_short_payload_unchanged (j : MessageJournal) (f : Filter) (r : Row)
    (hmem : r ∈ matchRows j f)
    (hshort : f.truncateLength = 0 ∨
      ∀ msg, r.workerData.lookup "message" = some msg → msg.length < f.truncateLength)
    (l : List ProjectedEntry) (hout : IsGetEntriesOutcome j f (Except.ok l)) :
    projectEntry f r ∈ l ∧ (projectEntry f r).workerData = r.workerData :=
  ⟨outcome_ok_mem j f r l hmem hout,
   truncateEventData_keep f.truncateLength r.workerData hshort⟩

/-- Witness for C7: with truncation bound 0, the stored payload comes back
unmodified. -/
theorem c7_witness :
    exRow1 ∈ matchRows exJournal noFilter ∧
    noFilter.truncateLength = 0 ∧
    projectEntry noFilter exRow1 ∈
      [projectEntry noFilter exRow1, projectEntry noFilter exRow2] ∧
    (projectEntry noFilter exRow1).workerData = exRow1.workerData := by
  have hout : IsGetEntriesOutcome exJournal noFilter
      (Except.ok [projectEntry noFilter exRow1, projectEntry noFilter exRow2]) := by
    refine ⟨[exRow1, exRow2], ⟨?_, by decide⟩, rfl⟩
    rw [show matchRows exJournal noFilter = [exRow1, exRow2] from rfl]
  have h := c7_short_payload_unchanged exJournal noFilter exRow1 (by decide)
    (Or.inl rfl) _ hout
  exact ⟨by decide, rfl, h.1, h.2⟩

/-- C8: AddEntry appends exactly one row and leaves every previously stored
row in place and unchanged — the stored prefix is untouched and nothing is
deleted. -/
theorem c8_addEntry_appends_exactly_one (j : MessageJournal) (e : WorkerMessage) :
    (AddEntry j e).rows.length = j.rows.length + 1 ∧
    (AddEntry j e).rows.take j.rows.length = j.rows ∧
    (AddEntry j e).rows = j.rows ++ [rowOfMessage (nextRowId j) e] := by
  refine ⟨?_, ?_, rfl⟩
  · show (j.rows ++ [rowOfMessage (nextRowId j) e]).length = j.rows.length + 1
    simp
  · show (j.rows ++ [rowOfMessage (nextRowId j) e]).take j.rows.length = j.rows
    simp

/-- C9: opening an already-migrated storage location applies no schema
change and does not fail — New succeeds, re-running the migration is a
no-op on the state, and the stored rows survive both opens. -/
theorem c9_reopen_schema_noop (db : DBState) (t1 t2 : String) :
    ∃ db1, New db t1 = Except.ok (db1, { rows := db1.rows, initializedAt := t1 }) ∧
      db1.rows = db.rows ∧
      New db1 t2 = Except.ok (db1, { rows := db1.rows, initializedAt := t2 }) := by
  by_cases h : db.schemaVersion < 1
  · refine ⟨applyUp001 db, ?_, rfl, ?_⟩
    · simp [New, migrateMessageJournalDB, migrationUp, h]
    · simp [New, migrateMessageJournalDB, migrationUp, applyUp001]
  · refine ⟨db, ?_, rfl, ?_⟩
    · simp [New, migrateMessageJournalDB, migrationUp, h]
    · simp [New, migrateMessageJournalDB, migrationUp, h]

/-- C10: for every journal state and filter, buildDynamicGetEntriesQuery
returns a compiled query string — the template-parse and template-execute
error branches are unreachable — and therefore GetEntries never takes its
"cannot build dynamic sql query" failure path: it always proceeds to the
query execution stage. -/
theorem c10_build_never_fails (j : MessageJournal) (f : Filter) :
    (∃ q, buildDynamicGetEntriesQuery j f = Except.ok q) ∧
    GetEntries j f = getEntriesOfRows f (sortBySent (matchRows j f)) :=
  ⟨buildQuery_ok j f, getEntries_eq j f⟩

end Ygg
